import Mathlib

/-!
# Verification of the resumable-download core (`src/main.rs`)

A shallow embedding of the resumable HTTP download program. The program
repeatedly: probes the local output file's length, issues a ranged GET
(`Range: bytes=<offset>-`), classifies the status (206 / 416 / other),
parses and validates the `Content-Range` header, and streams body chunks
to the file, retrying after a fixed delay on mid-stream read errors.

Machine integers (`u64`) are modelled as `Nat` with explicit `% 2^64`
where wrap-around matters; fallible operations return `Option`/`Except`
or tagged outcome types; the `Vec` indexing panics possible in
`ContentRange::from_str` are modelled by an explicit `crashed` outcome.
-/

namespace AudibleDl

/-- The size of the `u64` value space. -/
def U64SIZE : Nat := 2 ^ 64

/-- `t - 1` in wrapping `u64` arithmetic, as computed by
`content_range.total - 1` at `main.rs:142`. -/
def u64sub1 (t : Nat) : Nat := (t + (U64SIZE - 1)) % U64SIZE

/-- `ContentRange` (main.rs:35-39): `{ start: u64, end: u64, total: u64 }`.
The `end` field is renamed `endByte` because `end` is a Lean keyword. -/
structure ContentRange where
  start : Nat
  endByte : Nat
  total : Nat
deriving DecidableEq, Repr

/-- Numeric value of a decimal digit character (`'0'` ↦ 0, …). -/
def digitVal (c : Char) : Nat := c.toNat - 48

/-- Value of a list of decimal digit characters, most significant first. -/
def digitsVal (cs : List Char) : Nat :=
  cs.foldl (fun a c => a * 10 + digitVal c) 0

/-- Rust's `u64::from_str` accepts an optional leading `'+'` sign;
this removes it. -/
def stripPlus (cs : List Char) : List Char :=
  match cs with
  | c :: r => if c = '+' then r else cs
  | [] => []

/-- Model of `str::parse::<u64>()`: an optional `'+'`, then one or more
ASCII digits, rejecting values that do not fit in a `u64`.
`none` models `Err(ParseIntError)`. -/
def parseU64 (cs : List Char) : Option Nat :=
  let ds := stripPlus cs
  if ds = [] then none
  else if ds.all Char.isDigit then
    if digitsVal ds < U64SIZE then some (digitsVal ds) else none
  else none

/-- The two delimiters of `s.split(['-', '/'])` (main.rs:50). -/
def isDelim (c : Char) : Bool := c = '-' || c = '/'

/-- Model of Rust's `str::split(['-', '/'])`: split at every occurrence
of either delimiter; adjacent delimiters and delimiters at the ends
produce empty fields, and the empty string yields one empty field. -/
def splitDelims : List Char → List (List Char)
  | [] => [[]]
  | c :: cs =>
    if isDelim c then [] :: splitDelims cs
    else
      match splitDelims cs with
      | [] => [[c]]
      | p :: ps => (c :: p) :: ps

/-- Model of `.map(|s| s.parse::<u64>()).collect::<Result<Vec<_>, _>>()`
(main.rs:49-52): parse every field, short-circuiting to `none` at the
first parse failure. -/
def collectU64 : List (List Char) → Option (List Nat)
  | [] => some []
  | x :: xs =>
    match parseU64 x, collectU64 xs with
    | some v, some vs => some (v :: vs)
    | _, _ => none

/-- Model of `s.strip_prefix("bytes ")` (main.rs:45-47): `some rest`
when the string starts with the six characters `bytes ` (space
included), `none` otherwise. -/
def stripBytesSp (s : List Char) : Option (List Char) :=
  match s with
  | c1 :: c2 :: c3 :: c4 :: c5 :: c6 :: rest =>
    if c1 = 'b' ∧ c2 = 'y' ∧ c3 = 't' ∧ c4 = 'e' ∧ c5 = 's' ∧ c6 = ' '
    then some rest else none
  | _ => none

/-- Outcome of `ContentRange::from_str`: a parsed header, a returned
error (`Err(anyhow::Error)`), or a process abort (`crashed`) from the
unchecked `parts[0]` / `parts[1]` / `parts[2]` indexing at
main.rs:55-57, which panics when fewer than three fields were parsed. -/
inductive ParseOutcome where
  | okResult (cr : ContentRange)
  | errResult
  | crashed
deriving DecidableEq, Repr

/-- Model of `ContentRange::from_str` (main.rs:44-59): strip the
`"bytes "` prefix (else error), split the remainder on `-` and `/`,
parse every field as `u64` (any failure is an error), then build the
struct from fields 0, 1, 2 — a panic (`crashed`) when fewer than three
fields exist; any extra fields are silently ignored. -/
def contentRangeFromStr (s : List Char) : ParseOutcome :=
  match stripBytesSp s with
  | none => .errResult
  | some rest =>
    match collectU64 (splitDelims rest) with
    | none => .errResult
    | some parts =>
      if parts.length < 3 then .crashed
      else .okResult ⟨parts.getD 0 0, parts.getD 1 0, parts.getD 2 0⟩

/-- Decimal digit character for `d < 10`. -/
def digitChar (d : Nat) : Char := Char.ofNat (48 + d)

/-- Decimal rendering of a natural number (most significant digit
first), fuel-structured so that it reduces in the kernel; `natToDec`
supplies enough fuel. Models Rust's `format!("{}", n)` for `u64`. -/
def natToDecAux : Nat → Nat → List Char
  | 0, _ => []
  | fuel + 1, n =>
    if n < 10 then [digitChar n]
    else natToDecAux fuel (n / 10) ++ [digitChar (n % 10)]

/-- Decimal rendering of a natural number. -/
def natToDec (n : Nat) : List Char := natToDecAux (n + 1) n

/-! ## The attempt / retry state machine (main.rs:95-191)

One iteration of the outer `loop` is an *attempt*: probe the local
file, send the ranged request, classify the status, parse and validate
`Content-Range`, open the file for append, and stream chunks. The
environment an attempt runs against (filesystem answer, HTTP response,
chunk stream) is explicit data. -/

/-- The `std::io::ErrorKind` cases the probe distinguishes: `NotFound`
versus anything else. -/
inductive FsErrorKind where
  | notFound
  | permissionDenied
  | other
deriving DecidableEq, Repr

/-- Result of `tokio::fs::metadata(&output)` (main.rs:97): success with
the file's byte length, or a filesystem error of some kind. -/
inductive MetadataResult where
  | ok (len : Nat)
  | err (k : FsErrorKind)
deriving DecidableEq, Repr

/-- The distinct errors `main` can return (each `return Err(...)` /
`?` site of main.rs). -/
inductive Err where
  | ioMetadata (k : FsErrorKind)
  | sendFailed
  | invalidStatus (code : Nat)
  | missingHeader
  | invalidHeaderValue
  | invalidStart
  | invalidEnd
  | openFailed
  | writeFailed
  | shutdownFailed
deriving DecidableEq, Repr

/-- The local state probe (main.rs:97-103): the file's length on
success, `0` on `NotFound`, and any other filesystem error is
propagated (`return Err(e.into())`). -/
def probe (m : MetadataResult) : Except Err Nat :=
  match m with
  | .ok len => .ok len
  | .err k => if k = .notFound then .ok 0 else .error (.ioMetadata k)

/-- One response-body chunk (`res.chunk()` yielding `Ok(Some(chunk))`),
together with whether the `file.write_all(&chunk)` appending it
succeeds. -/
structure Chunk where
  data : List Nat
  writeOk : Bool
deriving DecidableEq, Repr

/-- How the chunk stream ends once every chunk in `chunks` has been
consumed: `Ok(None)` (end of stream) or `Err(e)` (mid-stream read
error); on a read error `file.shutdown()` may itself fail. -/
inductive StreamEnd where
  | eof
  | readErr (shutdownOk : Bool)
deriving DecidableEq, Repr

/-- The environment one attempt runs against: whether `send()` fails,
the response status, the raw `Content-Range` header value (`none` when
absent), whether opening the output file fails, and the body chunk
stream. -/
structure Response where
  sendErr : Bool
  status : Nat
  contentRange : Option (List Char)
  openErr : Bool
  chunks : List Chunk
  streamEnd : StreamEnd
deriving DecidableEq, Repr

/-- How one attempt ends: `completed` (`return Ok(())`), `failed e`
(`return Err(e)`), `retry` (the `break` of the retry arm, main.rs:186),
or `crashed` (a panic inside `from_str`). -/
inductive AttemptOutcome where
  | completed
  | failed (e : Err)
  | retry
  | crashed
deriving DecidableEq, Repr

/-- The inner download loop (main.rs:159-189): append each chunk whose
write succeeds; a failed write is `Err` propagated by `?`; end of
stream completes; a read error closes the file and retries (a failed
`shutdown()` is itself propagated by `?`). Returns the file content
after the loop and the loop's outcome. -/
def runStream : List Chunk → StreamEnd → List Nat → List Nat × AttemptOutcome
  | [], .eof, file => (file, .completed)
  | [], .readErr ok, file =>
    (file, if ok then .retry else .failed .shutdownFailed)
  | c :: rest, e, file =>
    if c.writeOk then runStream rest e (file ++ c.data)
    else (file, .failed .writeFailed)

/-- The `Range` header value sent for offset `start`:
`format!("bytes={}-", start)` (main.rs:112). -/
def rangeHeaderValue (start : Nat) : List Char :=
  'b' :: 'y' :: 't' :: 'e' :: 's' :: '=' :: (natToDec start ++ ['-'])

/-- Observable trace of one attempt: the `Range` header of the request
it issued (`none` when no request was sent), whether the output file
was opened for append, the resulting file content, and the outcome. -/
structure AttemptTrace where
  requestRange : Option (List Char)
  fileOpened : Bool
  file : List Nat
  outcome : AttemptOutcome
deriving DecidableEq, Repr

/-- main.rs:130-189 for a 206 response: parse the `Content-Range`
header (absent → error, `to_str`/`parse` failure → error, panic →
crash), check `content_range.start == start` and
`content_range.end == content_range.total - 1` (u64 subtraction), open
the file for append, then stream. -/
def validateAndStream (start : Nat) (resp : Response) (fileInit : List Nat) :
    AttemptTrace :=
  let range := rangeHeaderValue start
  match resp.contentRange with
  | none => ⟨some range, false, fileInit, .failed .missingHeader⟩
  | some s =>
    match contentRangeFromStr s with
    | .errResult => ⟨some range, false, fileInit, .failed .invalidHeaderValue⟩
    | .crashed => ⟨some range, false, fileInit, .crashed⟩
    | .okResult cr =>
      if cr.start ≠ start then
        ⟨some range, false, fileInit, .failed .invalidStart⟩
      else if cr.endByte ≠ u64sub1 cr.total then
        ⟨some range, false, fileInit, .failed .invalidEnd⟩
      else if resp.openErr then
        ⟨some range, false, fileInit, .failed .openFailed⟩
      else
        ⟨some range, true, (runStream resp.chunks resp.streamEnd fileInit).1,
          (runStream resp.chunks resp.streamEnd fileInit).2⟩

/-- main.rs:110-189 after a successful probe: send the ranged request
(a send failure is propagated by `?`), then classify the status:
206 continues to validation and streaming, 416 is the success terminal,
anything else is `Err(anyhow!("Invalid status code: {code}"))`. -/
def afterProbe (start : Nat) (resp : Response) (fileInit : List Nat) :
    AttemptTrace :=
  let range := rangeHeaderValue start
  if resp.sendErr then ⟨some range, false, fileInit, .failed .sendFailed⟩
  else if resp.status = 206 then validateAndStream start resp fileInit
  else if resp.status = 416 then ⟨some range, false, fileInit, .completed⟩
  else ⟨some range, false, fileInit, .failed (.invalidStatus resp.status)⟩

/-- One iteration of the outer `loop` (main.rs:95-191): probe the local
file (a non-`NotFound` error aborts before any request), then proceed
as `afterProbe`. -/
def runAttempt (m : MetadataResult) (resp : Response) (fileInit : List Nat) :
    AttemptTrace :=
  match probe m with
  | .error e => ⟨none, false, fileInit, .failed e⟩
  | .ok start => afterProbe start resp fileInit

/-- The environment of one attempt: the filesystem's answer to the
probe and the HTTP response. -/
structure OpEnv where
  fs : MetadataResult
  resp : Response
deriving DecidableEq, Repr

/-- Terminal outcome of the whole operation; `exhausted` marks runs
whose environment list ended while the program would still be
retrying (the real loop is unbounded). -/
inductive OpOutcome where
  | completed
  | failed (e : Err)
  | crashed
  | exhausted
deriving DecidableEq, Repr

/-- Observable trace of a whole run: how many HTTP requests were
issued, the final file content, and the terminal outcome. -/
structure OpTrace where
  requests : Nat
  file : List Nat
  outcome : OpOutcome
deriving DecidableEq, Repr

/-- Number of HTTP requests an attempt issued (0 or 1). -/
def reqCount (t : AttemptTrace) : Nat := if t.requestRange.isSome then 1 else 0

/-- The outer `loop`: run attempts against successive environments; a
`retry` outcome starts the next cycle from the file left on disk, any
other outcome is terminal. -/
def runOp : List OpEnv → List Nat → OpTrace
  | [], file => ⟨0, file, .exhausted⟩
  | e :: rest, file =>
    let t := runAttempt e.fs e.resp file
    match t.outcome with
    | .retry =>
      let r := runOp rest t.file
      ⟨reqCount t + r.requests, r.file, r.outcome⟩
    | .completed => ⟨reqCount t, t.file, .completed⟩
    | .failed er => ⟨reqCount t, t.file, .failed er⟩
    | .crashed => ⟨reqCount t, t.file, .crashed⟩

/-- The validator's acceptance condition (main.rs:138-144): the
parsed header passes when `start` equals the requested offset and
`end` equals `total - 1` in `u64` arithmetic. -/
def passesValidation (offset : Nat) (cr : ContentRange) : Prop :=
  cr.start = offset ∧ cr.endByte = u64sub1 cr.total

instance (offset : Nat) (cr : ContentRange) :
    Decidable (passesValidation offset cr) := by
  unfold passesValidation; infer_instance

/-- The fatal errors classified as protocol errors: bad status and the
four `Content-Range` failure modes, all raised before the output file
is opened. -/
def protocolErr (e : Err) : Prop :=
  (∃ c, e = .invalidStatus c) ∨ e = .missingHeader ∨
    e = .invalidHeaderValue ∨ e = .invalidStart ∨ e = .invalidEnd

/-! ## Helper lemmas -/

theorem digitsVal_append (xs : List Char) (c : Char) :
    digitsVal (xs ++ [c]) = digitsVal xs * 10 + digitVal c := by
  unfold digitsVal
  rw [List.foldl_append]
  rfl

theorem digitVal_digitChar {d : Nat} (h : d < 10) :
    digitVal (digitChar d) = d := by
  interval_cases d <;> decide

theorem isDigit_digitChar {d : Nat} (h : d < 10) :
    (digitChar d).isDigit = true := by
  interval_cases d <;> decide

theorem not_isDelim_of_isDigit {c : Char} (h : c.isDigit = true) :
    isDelim c = false := by
  rcases eq_or_ne c '-' with rfl | h1
  · exact absurd h (by decide)
  rcases eq_or_ne c '/' with rfl | h2
  · exact absurd h (by decide)
  simp [isDelim, h1, h2]

theorem ne_plus_of_isDigit {c : Char} (h : c.isDigit = true) : c ≠ '+' := by
  intro hc; subst hc; exact absurd h (by decide)

theorem natToDecAux_spec : ∀ fuel n : Nat, n < fuel →
    natToDecAux fuel n ≠ [] ∧ (∀ c ∈ natToDecAux fuel n, c.isDigit = true) ∧
      digitsVal (natToDecAux fuel n) = n := by
  intro fuel
  induction fuel with
  | zero => intro n h; omega
  | succ f ih =>
    intro n h
    by_cases h10 : n < 10
    · have he : natToDecAux (f + 1) n = [digitChar n] := by
        simp [natToDecAux, h10]
      refine ⟨by simp [he], ?_, ?_⟩
      · intro c hc
        rw [he] at hc
        simp at hc
        subst hc
        exact isDigit_digitChar h10
      · rw [he]
        show 0 * 10 + digitVal (digitChar n) = n
        rw [digitVal_digitChar h10]
        omega
    · have hd : n / 10 < f := by
        have h1 : n / 10 < n := Nat.div_lt_self (by omega) (by omega)
        omega
      obtain ⟨hne, hdig, hval⟩ := ih (n / 10) hd
      have he : natToDecAux (f + 1) n =
          natToDecAux f (n / 10) ++ [digitChar (n % 10)] := by
        simp [natToDecAux, h10]
      have hm : n % 10 < 10 := Nat.mod_lt _ (by omega)
      refine ⟨by simp [he], ?_, ?_⟩
      · intro c hc
        rw [he] at hc
        rcases List.mem_append.mp hc with hc | hc
        · exact hdig c hc
        · simp at hc
          subst hc
          exact isDigit_digitChar hm
      · rw [he, digitsVal_append, hval, digitVal_digitChar hm]
        omega

theorem natToDec_ne_nil (n : Nat) : natToDec n ≠ [] :=
  (natToDecAux_spec _ _ (Nat.lt_succ_self n)).1

theorem natToDec_all_digits (n : Nat) : ∀ c ∈ natToDec n, c.isDigit = true :=
  (natToDecAux_spec _ _ (Nat.lt_succ_self n)).2.1

theorem digitsVal_natToDec (n : Nat) : digitsVal (natToDec n) = n :=
  (natToDecAux_spec _ _ (Nat.lt_succ_self n)).2.2

theorem stripPlus_eq_self {cs : List Char}
    (h : ∀ c ∈ cs, c.isDigit = true) : stripPlus cs = cs := by
  cases cs with
  | nil => rfl
  | cons c r =>
    have hc : c ≠ '+' := ne_plus_of_isDigit (h c (by simp))
    simp [stripPlus, hc]

theorem parseU64_natToDec {n : Nat} (h : n < U64SIZE) :
    parseU64 (natToDec n) = some n := by
  simp only [parseU64]
  rw [stripPlus_eq_self (natToDec_all_digits n)]
  rw [if_neg (natToDec_ne_nil n)]
  rw [if_pos (by rw [List.all_eq_true]; exact natToDec_all_digits n)]
  rw [digitsVal_natToDec]
  exact if_pos h

theorem splitDelims_ne_nil : ∀ s : List Char, splitDelims s ≠ [] := by
  intro s
  induction s with
  | nil => simp [splitDelims]
  | cons c cs ih =>
    by_cases h : isDelim c = true
    · simp [splitDelims, h]
    · simp only [splitDelims, h, if_false, Bool.false_eq_true]
      cases hs : splitDelims cs with
      | nil => simp
      | cons p ps => simp

theorem splitDelims_append : ∀ (A r p : List Char) (ps : List (List Char)),
    (∀ c ∈ A, isDelim c = false) → splitDelims r = p :: ps →
    splitDelims (A ++ r) = (A ++ p) :: ps := by
  intro A
  induction A with
  | nil => intro r p ps _ h; simpa using h
  | cons c A ih =>
    intro r p ps hA h
    have hc : isDelim c = false := hA c (by simp)
    have ih' := ih r p ps (fun x hx => hA x (by simp [hx])) h
    simp only [List.cons_append, splitDelims, hc, if_false, Bool.false_eq_true,
      List.append_eq, ih']

theorem splitDelims_no_delim (A : List Char)
    (hA : ∀ c ∈ A, isDelim c = false) : splitDelims A = [A] := by
  have h := splitDelims_append A [] [] [] hA (by rfl)
  simpa using h

theorem collectU64_none {l : List (List Char)} {f : List Char}
    (hf : f ∈ l) (hfn : parseU64 f = none) : collectU64 l = none := by
  induction l with
  | nil => simp at hf
  | cons x xs ih =>
    rcases List.mem_cons.mp hf with rfl | hf'
    · simp [collectU64, hfn]
    · have hxs := ih hf'
      cases hx : parseU64 x <;> simp [collectU64, hx, hxs]

theorem runStream_all_writeOk : ∀ (chunks : List Chunk) (file : List Nat),
    (∀ c ∈ chunks, c.writeOk = true) →
    runStream chunks (.readErr true) file =
      (file ++ (chunks.map Chunk.data).flatten, .retry) := by
  intro chunks
  induction chunks with
  | nil => intro file _; simp [runStream]
  | cons c rest ih =>
    intro file h
    have hc : c.writeOk = true := h c (by simp)
    simp only [runStream, hc, if_true]
    rw [ih (file ++ c.data) (fun x hx => h x (by simp [hx]))]
    simp

theorem runStream_outcome_cases :
    ∀ (chunks : List Chunk) (e : StreamEnd) (file : List Nat),
    (runStream chunks e file).2 = .completed ∨
    (runStream chunks e file).2 = .retry ∨
    (runStream chunks e file).2 = .failed .writeFailed ∨
    (runStream chunks e file).2 = .failed .shutdownFailed := by
  intro chunks
  induction chunks with
  | nil =>
    intro e file
    cases e with
    | eof => simp [runStream]
    | readErr ok => cases ok <;> simp [runStream]
  | cons c rest ih =>
    intro e file
    by_cases hc : c.writeOk = true
    · simp only [runStream, hc, if_true]
      exact ih e (file ++ c.data)
    · simp [runStream, hc]

theorem stripBytesSp_some : ∀ {s r : List Char}, stripBytesSp s = some r →
    s = 'b' :: 'y' :: 't' :: 'e' :: 's' :: ' ' :: r := by
  intro s r h
  match s with
  | [] => simp [stripBytesSp] at h
  | [c1] => simp [stripBytesSp] at h
  | [c1, c2] => simp [stripBytesSp] at h
  | [c1, c2, c3] => simp [stripBytesSp] at h
  | [c1, c2, c3, c4] => simp [stripBytesSp] at h
  | [c1, c2, c3, c4, c5] => simp [stripBytesSp] at h
  | c1 :: c2 :: c3 :: c4 :: c5 :: c6 :: rest =>
    simp only [stripBytesSp] at h
    split at h
    · rename_i hcond
      obtain ⟨h1, h2, h3, h4, h5, h6⟩ := hcond
      subst h1; subst h2; subst h3; subst h4; subst h5; subst h6
      simpa using h
    · simp at h

theorem validateAndStream_requestRange (start : Nat) (resp : Response)
    (f : List Nat) :
    (validateAndStream start resp f).requestRange =
      some (rangeHeaderValue start) := by
  unfold validateAndStream
  repeat first | rfl | split

theorem afterProbe_requestRange (start : Nat) (resp : Response)
    (f : List Nat) :
    (afterProbe start resp f).requestRange =
      some (rangeHeaderValue start) := by
  unfold afterProbe
  split
  · rfl
  split
  · exact validateAndStream_requestRange start resp f
  split <;> rfl

theorem runAttempt_206 (m : MetadataResult) (resp : Response)
    (file : List Nat) (L : Nat) (hm : probe m = .ok L)
    (hsend : resp.sendErr = false) (h206 : resp.status = 206) :
    runAttempt m resp file = validateAndStream L resp file := by
  unfold runAttempt
  rw [hm]
  simp [afterProbe, hsend, h206]

theorem runAttempt_dichotomy (m : MetadataResult) (resp : Response)
    (file : List Nat) :
    ((runAttempt m resp file).fileOpened = false ∧
      (runAttempt m resp file).file = file) ∨
    ((runAttempt m resp file).fileOpened = true ∧
      (runAttempt m resp file).file =
        (runStream resp.chunks resp.streamEnd file).1 ∧
      (runAttempt m resp file).outcome =
        (runStream resp.chunks resp.streamEnd file).2) := by
  unfold runAttempt afterProbe validateAndStream
  repeat' split
  all_goals simp

theorem stripBytesSp_cons (r : List Char) :
    stripBytesSp ('b' :: 'y' :: 't' :: 'e' :: 's' :: ' ' :: r) = some r := by
  simp [stripBytesSp]

/-! ## Claim theorems -/

/-- C3 (code_bug): the claim says `ContentRange::from_str` is total and
returns a tagged error on any wrong field count. The code instead
panics (index out of bounds on `parts[1]`) when fewer than three
numeric fields are present — `"bytes 5"` — and silently succeeds,
ignoring the extra field, when more than three are present —
`"bytes 1-2/3/4"` parses as `{start 1, end 2, total 3}`. -/
theorem c3_field_count_behavior :
    contentRangeFromStr ("bytes 5".toList) = .crashed ∧
    contentRangeFromStr ("bytes 1-2/3/4".toList) = .okResult ⟨1, 2, 3⟩ := by
  decide

/-- C5: the local state probe returns the file's byte length when the
file exists, `0` when the metadata call fails with `NotFound`, and for
any other filesystem error the whole attempt fails fatally with that
error before any HTTP request is issued (`requestRange = none`). -/
theorem c5_probe_contract (len : Nat) (k : FsErrorKind) (resp : Response)
    (file : List Nat) (hk : k ≠ .notFound) :
    probe (.ok len) = .ok len ∧
    probe (.err .notFound) = .ok 0 ∧
    probe (.err k) = .error (.ioMetadata k) ∧
    runAttempt (.err k) resp file =
      ⟨none, false, file, .failed (.ioMetadata k)⟩ := by
  refine ⟨rfl, rfl, ?_, ?_⟩
  · simp [probe, hk]
  · unfold runAttempt
    simp [probe, hk]

/-- Witness for C5 at a concrete non-`NotFound` filesystem error. -/
theorem c5_probe_contract_witness :
    probe (.ok 7) = .ok 7 ∧
    probe (.err .notFound) = .ok 0 ∧
    probe (.err .permissionDenied) = .error (.ioMetadata .permissionDenied) ∧
    runAttempt (.err .permissionDenied) ⟨false, 206, none, false, [], .eof⟩ [3] =
      ⟨none, false, [3], .failed (.ioMetadata .permissionDenied)⟩ :=
  c5_probe_contract 7 .permissionDenied ⟨false, 206, none, false, [], .eof⟩ [3]
    (by decide)

/-- C6: a 416 response is the success terminal for any probed offset:
the attempt completes, the file is not opened and is byte-identical;
a whole run against a single 416 response issues exactly one request
and leaves the file unchanged (idempotence on an already-complete
file). -/
theorem c6_status416_idempotent (m : MetadataResult) (resp : Response)
    (file : List Nat) (L : Nat) (hm : probe m = .ok L)
    (hsend : resp.sendErr = false) (h416 : resp.status = 416) :
    runAttempt m resp file =
      ⟨some (rangeHeaderValue L), false, file, .completed⟩ ∧
    runOp [⟨m, resp⟩] file = ⟨1, file, .completed⟩ := by
  have h1 : runAttempt m resp file =
      ⟨some (rangeHeaderValue L), false, file, .completed⟩ := by
    unfold runAttempt
    rw [hm]
    simp [afterProbe, hsend, h416]
  refine ⟨h1, ?_⟩
  simp [runOp, h1, reqCount]

/-- Witness for C6: a 10-byte file already fully downloaded. -/
theorem c6_status416_idempotent_witness :
    runAttempt (.ok 10) ⟨false, 416, none, false, [], .eof⟩
        [1, 2, 3, 4, 5, 6, 7, 8, 9, 10] =
      ⟨some (rangeHeaderValue 10), false,
        [1, 2, 3, 4, 5, 6, 7, 8, 9, 10], .completed⟩ ∧
    runOp [⟨.ok 10, ⟨false, 416, none, false, [], .eof⟩⟩]
        [1, 2, 3, 4, 5, 6, 7, 8, 9, 10] =
      ⟨1, [1, 2, 3, 4, 5, 6, 7, 8, 9, 10], .completed⟩ :=
  c6_status416_idempotent (.ok 10) ⟨false, 416, none, false, [], .eof⟩
    [1, 2, 3, 4, 5, 6, 7, 8, 9, 10] 10 rfl rfl rfl

/-- C7: whenever the probe yields length `L`, the attempt's request
carries exactly the header value `bytes=L-` with `L` rendered in
decimal (the rendering is a digit string whose value is `L`). -/
theorem c7_range_header_exact (m : MetadataResult) (resp : Response)
    (file : List Nat) (L : Nat) (hm : probe m = .ok L) :
    (runAttempt m resp file).requestRange =
      some ('b' :: 'y' :: 't' :: 'e' :: 's' :: '=' :: (natToDec L ++ ['-'])) ∧
    digitsVal (natToDec L) = L ∧
    (natToDec L).all Char.isDigit = true := by
  refine ⟨?_, digitsVal_natToDec L,
    by rw [List.all_eq_true]; exact natToDec_all_digits L⟩
  unfold runAttempt
  rw [hm]
  exact afterProbe_requestRange L resp file

/-- Witness for C7 at probed length 12. -/
theorem c7_range_header_exact_witness :
    (runAttempt (.ok 12) ⟨false, 416, none, false, [], .eof⟩ []).requestRange =
      some ('b' :: 'y' :: 't' :: 'e' :: 's' :: '=' :: (natToDec 12 ++ ['-'])) ∧
    digitsVal (natToDec 12) = 12 ∧
    (natToDec 12).all Char.isDigit = true :=
  c7_range_header_exact (.ok 12) ⟨false, 416, none, false, [], .eof⟩ [] 12 rfl

/-- C8: any status other than 206 and 416 is fatal: the attempt fails
with an error carrying that status code, the file is neither opened nor
modified, and the whole run terminates with that failure (no retry). -/
theorem c8_bad_status_fatal (m : MetadataResult) (resp : Response)
    (file : List Nat) (L : Nat) (rest : List OpEnv) (hm : probe m = .ok L)
    (hsend : resp.sendErr = false) (h206 : resp.status ≠ 206)
    (h416 : resp.status ≠ 416) :
    runAttempt m resp file =
      ⟨some (rangeHeaderValue L), false, file,
        .failed (.invalidStatus resp.status)⟩ ∧
    (runOp (⟨m, resp⟩ :: rest) file).outcome =
      .failed (.invalidStatus resp.status) := by
  have h1 : runAttempt m resp file =
      ⟨some (rangeHeaderValue L), false, file,
        .failed (.invalidStatus resp.status)⟩ := by
    unfold runAttempt
    rw [hm]
    simp [afterProbe, hsend, h206, h416]
  refine ⟨h1, ?_⟩
  simp [runOp, h1, reqCount]

/-- Witness for C8 at status 500 with further environments available:
the run fails immediately rather than retrying. -/
theorem c8_bad_status_fatal_witness :
    runAttempt (.ok 0) ⟨false, 500, none, false, [], .eof⟩ [] =
      ⟨some (rangeHeaderValue 0), false, [], .failed (.invalidStatus 500)⟩ ∧
    (runOp [⟨.ok 0, ⟨false, 500, none, false, [], .eof⟩⟩,
        ⟨.ok 0, ⟨false, 416, none, false, [], .eof⟩⟩] []).outcome =
      .failed (.invalidStatus 500) :=
  c8_bad_status_fatal (.ok 0) ⟨false, 500, none, false, [], .eof⟩ [] 0
    [⟨.ok 0, ⟨false, 416, none, false, [], .eof⟩⟩] rfl rfl
    (by decide) (by decide)

/-- C1 (counterexample): a failure while *appending* a chunk is NOT
transient — with a valid 206 response whose first chunk's write fails,
the whole operation terminates with that write error as its final
failure, contradicting the claim that mid-stream write errors are
retried and never surfaced. -/
theorem c1_write_error_fatal_cex :
    (runOp [⟨.ok 0, ⟨false, 206, some ("bytes 0-9/10".toList), false,
        [⟨[1, 2, 3], false⟩], .eof⟩⟩] []).outcome = .failed .writeFailed := by
  decide

/-- C1 (amended): only a mid-stream *read* error is transient: with a
valid 206 response whose chunk writes all succeed and whose stream ends
in a read error (with the file closing successfully), the attempt ends
in `retry` with the streamed bytes appended, and the run's final
outcome is that of the remaining cycles — the read error is never the
final failure. -/
theorem c1_read_error_transient (m : MetadataResult) (resp : Response)
    (file : List Nat) (L : Nat) (s : List Char) (cr : ContentRange)
    (rest : List OpEnv)
    (hm : probe m = .ok L) (hsend : resp.sendErr = false)
    (h206 : resp.status = 206) (hcr : resp.contentRange = some s)
    (hp : contentRangeFromStr s = .okResult cr)
    (hst : cr.start = L) (hend : cr.endByte = u64sub1 cr.total)
    (hopen : resp.openErr = false)
    (hw : ∀ c ∈ resp.chunks, c.writeOk = true)
    (hse : resp.streamEnd = .readErr true) :
    (runAttempt m resp file).outcome = .retry ∧
    (runAttempt m resp file).file =
      file ++ (resp.chunks.map Chunk.data).flatten ∧
    (runOp (⟨m, resp⟩ :: rest) file).outcome =
      (runOp rest (file ++ (resp.chunks.map Chunk.data).flatten)).outcome := by
  have hV : runAttempt m resp file =
      ⟨some (rangeHeaderValue L), true,
        file ++ (resp.chunks.map Chunk.data).flatten, .retry⟩ := by
    have hrs := runStream_all_writeOk resp.chunks file hw
    rw [runAttempt_206 m resp file L hm hsend h206]
    unfold validateAndStream
    simp [hcr, hp, hse, hst, hend, hopen, hrs]
  refine ⟨by rw [hV], by rw [hV], ?_⟩
  simp [runOp, hV]

/-- Witness for the amended C1: two successfully written chunks, then a
read error; the next cycle completes the download and the final outcome
is `completed`, not the read error. -/
theorem c1_read_error_transient_witness :
    (runAttempt (.ok 0) ⟨false, 206, some ("bytes 0-9/10".toList), false,
        [⟨[1, 2], true⟩], .readErr true⟩ []).outcome = .retry ∧
    (runAttempt (.ok 0) ⟨false, 206, some ("bytes 0-9/10".toList), false,
        [⟨[1, 2], true⟩], .readErr true⟩ []).file =
      [] ++ ([Chunk.mk [1, 2] true].map Chunk.data).flatten ∧
    (runOp [⟨.ok 0, ⟨false, 206, some ("bytes 0-9/10".toList), false,
          [⟨[1, 2], true⟩], .readErr true⟩⟩,
        ⟨.ok 2, ⟨false, 206, some ("bytes 2-9/10".toList), false,
          [⟨[3, 4, 5, 6, 7, 8, 9, 10], true⟩], .eof⟩⟩] []).outcome =
      (runOp [⟨.ok 2, ⟨false, 206, some ("bytes 2-9/10".toList), false,
          [⟨[3, 4, 5, 6, 7, 8, 9, 10], true⟩], .eof⟩⟩]
        ([] ++ ([Chunk.mk [1, 2] true].map Chunk.data).flatten)).outcome :=
  c1_read_error_transient (.ok 0)
    ⟨false, 206, some ("bytes 0-9/10".toList), false,
      [⟨[1, 2], true⟩], .readErr true⟩ [] 0 ("bytes 0-9/10".toList)
    ⟨0, 9, 10⟩
    [⟨.ok 2, ⟨false, 206, some ("bytes 2-9/10".toList), false,
      [⟨[3, 4, 5, 6, 7, 8, 9, 10], true⟩], .eof⟩⟩]
    rfl rfl rfl rfl (by decide) rfl (by decide) rfl (by decide) rfl

/-- C2: if the parsed `Content-Range` start differs from the requested
offset, or its end differs from `total - 1` (the code's `u64`
subtraction, `u64sub1`), the attempt fails fatally (`invalidStart` or
`invalidEnd`), the output file is not opened, and its content is
unchanged. -/
theorem c2_range_mismatch_fatal (m : MetadataResult) (resp : Response)
    (file : List Nat) (L : Nat) (s : List Char) (cr : ContentRange)
    (hm : probe m = .ok L) (hsend : resp.sendErr = false)
    (h206 : resp.status = 206) (hcr : resp.contentRange = some s)
    (hp : contentRangeFromStr s = .okResult cr)
    (hbad : cr.start ≠ L ∨ cr.endByte ≠ u64sub1 cr.total) :
    ((runAttempt m resp file).outcome = .failed .invalidStart ∨
      (runAttempt m resp file).outcome = .failed .invalidEnd) ∧
    (runAttempt m resp file).file = file ∧
    (runAttempt m resp file).fileOpened = false := by
  rw [runAttempt_206 m resp file L hm hsend h206]
  unfold validateAndStream
  by_cases h1 : cr.start = L
  · have h2 : cr.endByte ≠ u64sub1 cr.total := by tauto
    simp [hcr, hp, h1, h2]
  · simp [hcr, hp, h1]

/-- Witness for C2: requested offset 5, server declares start 0. -/
theorem c2_range_mismatch_fatal_witness :
    ((runAttempt (.ok 5) ⟨false, 206, some ("bytes 0-9/10".toList), false,
        [], .eof⟩ [9, 9, 9, 9, 9]).outcome = .failed .invalidStart ∨
      (runAttempt (.ok 5) ⟨false, 206, some ("bytes 0-9/10".toList), false,
        [], .eof⟩ [9, 9, 9, 9, 9]).outcome = .failed .invalidEnd) ∧
    (runAttempt (.ok 5) ⟨false, 206, some ("bytes 0-9/10".toList), false,
      [], .eof⟩ [9, 9, 9, 9, 9]).file = [9, 9, 9, 9, 9] ∧
    (runAttempt (.ok 5) ⟨false, 206, some ("bytes 0-9/10".toList), false,
      [], .eof⟩ [9, 9, 9, 9, 9]).fileOpened = false :=
  c2_range_mismatch_fatal (.ok 5)
    ⟨false, 206, some ("bytes 0-9/10".toList), false, [], .eof⟩
    [9, 9, 9, 9, 9] 5 ("bytes 0-9/10".toList) ⟨0, 9, 10⟩
    rfl rfl rfl rfl (by decide) (by decide)

/-- C4: parsing `"bytes a-b/c"` (decimal renderings of `u64` values)
succeeds with exactly those three fields; any string not starting with
`"bytes "` is an error; and a non-numeric field anywhere in the
numeric section is an error. -/
theorem c4_parse_roundtrip_and_errors (a b c : Nat)
    (ha : a < U64SIZE) (hb : b < U64SIZE) (hc : c < U64SIZE)
    (s2 : List Char)
    (h2 : ∀ r, s2 ≠ 'b' :: 'y' :: 't' :: 'e' :: 's' :: ' ' :: r)
    (s3 f : List Char) (hf : f ∈ splitDelims s3)
    (hfn : parseU64 f = none) :
    contentRangeFromStr ('b' :: 'y' :: 't' :: 'e' :: 's' :: ' ' ::
        (natToDec a ++ '-' :: natToDec b ++ '/' :: natToDec c)) =
      .okResult ⟨a, b, c⟩ ∧
    contentRangeFromStr s2 = .errResult ∧
    contentRangeFromStr ('b' :: 'y' :: 't' :: 'e' :: 's' :: ' ' :: s3) =
      .errResult := by
  refine ⟨?_, ?_, ?_⟩
  · have hda : ∀ ch ∈ natToDec a, isDelim ch = false := fun ch hch =>
      not_isDelim_of_isDigit (natToDec_all_digits a ch hch)
    have hdb : ∀ ch ∈ natToDec b, isDelim ch = false := fun ch hch =>
      not_isDelim_of_isDigit (natToDec_all_digits b ch hch)
    have hdc : ∀ ch ∈ natToDec c, isDelim ch = false := fun ch hch =>
      not_isDelim_of_isDigit (natToDec_all_digits c ch hch)
    have h3 : splitDelims (natToDec c) = [natToDec c] :=
      splitDelims_no_delim _ hdc
    have h2c : splitDelims ('/' :: natToDec c) = [] :: [natToDec c] := by
      simp [splitDelims, isDelim, h3]
    have h2b : splitDelims (natToDec b ++ '/' :: natToDec c) =
        natToDec b :: [natToDec c] := by
      have := splitDelims_append (natToDec b) ('/' :: natToDec c) []
        [natToDec c] hdb h2c
      simpa using this
    have h1b : splitDelims ('-' :: (natToDec b ++ '/' :: natToDec c)) =
        [] :: natToDec b :: [natToDec c] := by
      simp [splitDelims, isDelim, h2b]
    have hsplit : splitDelims (natToDec a ++ '-' :: natToDec b ++ '/' ::
        natToDec c) = [natToDec a, natToDec b, natToDec c] := by
      have := splitDelims_append (natToDec a)
        ('-' :: (natToDec b ++ '/' :: natToDec c)) []
        (natToDec b :: [natToDec c]) hda h1b
      simpa using this
    simp only [contentRangeFromStr, stripBytesSp_cons, hsplit]
    simp [collectU64, parseU64_natToDec ha, parseU64_natToDec hb,
      parseU64_natToDec hc]
  · cases hs : stripBytesSp s2 with
    | none => simp [contentRangeFromStr, hs]
    | some r => exact absurd (stripBytesSp_some hs) (h2 r)
  · simp only [contentRangeFromStr, stripBytesSp_cons]
    rw [collectU64_none hf hfn]

/-- Witness for C4: multi-digit fields 10, 2, 30; `"x"` lacks the
prefix; `"bytes 1-x/3"` has a non-numeric middle field. -/
theorem c4_parse_roundtrip_and_errors_witness :
    contentRangeFromStr ('b' :: 'y' :: 't' :: 'e' :: 's' :: ' ' ::
        (natToDec 10 ++ '-' :: natToDec 2 ++ '/' :: natToDec 30)) =
      .okResult ⟨10, 2, 30⟩ ∧
    contentRangeFromStr ['x'] = .errResult ∧
    contentRangeFromStr ('b' :: 'y' :: 't' :: 'e' :: 's' :: ' ' ::
        ("1-x/3".toList)) = .errResult :=
  c4_parse_roundtrip_and_errors 10 2 30 (by decide) (by decide) (by decide)
    ['x'] (by intro r h; injection h with h1 _; exact absurd h1 (by decide))
    ("1-x/3".toList) ['x'] (by decide) (by decide)

/-- C9 (counterexample): the claimed invariant `start ≤ end < total`
does not hold of every header that passes validation: requesting offset
5 against the header `bytes 5-2/3` passes both validator checks (the
file is opened and streaming proceeds), yet `start ≤ end` fails. -/
theorem c9_invariant_cex :
    passesValidation 5 ⟨5, 2, 3⟩ ∧ ¬ (5 ≤ 2 ∧ 2 < 3) ∧
    (runAttempt (.ok 5) ⟨false, 206, some ("bytes 5-2/3".toList), false,
        [], .eof⟩ [0, 0, 0, 0, 0]).fileOpened = true := by
  refine ⟨?_, by decide, by decide⟩
  constructor
  · rfl
  · decide

/-- C9 (amended): for every header passing validation against the
requested offset, *provided the offset is below the declared total*
(so in particular `total > 0`), the invariant `start ≤ end < total`
holds. -/
theorem c9_invariant_when_offset_lt_total (offset : Nat)
    (cr : ContentRange) (hv : passesValidation offset cr)
    (htot : cr.total < U64SIZE) (hofs : offset < cr.total) :
    cr.start ≤ cr.endByte ∧ cr.endByte < cr.total := by
  obtain ⟨h1, h2⟩ := hv
  have hU : U64SIZE = 18446744073709551616 := by norm_num [U64SIZE]
  rw [u64sub1, hU] at h2
  rw [hU] at htot
  subst h1
  omega

/-- Witness for the amended C9 at offset 0, header `bytes 0-9/10`. -/
theorem c9_invariant_when_offset_lt_total_witness :
    (0 : Nat) ≤ 9 ∧ (9 : Nat) < 10 := by
  have h := c9_invariant_when_offset_lt_total 0 ⟨0, 9, 10⟩
    (by constructor <;> decide) (by decide) (by decide)
  exact h

/-- C10: whenever an attempt fails with a protocol error (bad status,
missing or malformed `Content-Range`, start/end mismatch), the output
file was never opened for append and its content is unchanged —
validation completes before the file is touched. -/
theorem c10_no_open_on_protocol_error (m : MetadataResult)
    (resp : Response) (file : List Nat) (e : Err)
    (hout : (runAttempt m resp file).outcome = .failed e)
    (he : protocolErr e) :
    (runAttempt m resp file).fileOpened = false ∧
    (runAttempt m resp file).file = file := by
  rcases runAttempt_dichotomy m resp file with ⟨h1, h2⟩ | ⟨_, _, h3⟩
  · exact ⟨h1, h2⟩
  · exfalso
    rw [h3] at hout
    rcases runStream_outcome_cases resp.chunks resp.streamEnd file with
      h | h | h | h <;> rw [h] at hout
    · simp at hout
    · simp at hout
    · injection hout with he'
      subst he'
      rcases he with ⟨c, hc⟩ | hc | hc | hc | hc <;> simp at hc
    · injection hout with he'
      subst he'
      rcases he with ⟨c, hc⟩ | hc | hc | hc | hc <;> simp at hc

/-- Witness for C10: a 404 response against an empty local file: the
attempt fails with `invalidStatus 404` and the file stays untouched
(and, having never been opened with `create(true)`, uncreated). -/
theorem c10_no_open_on_protocol_error_witness :
    (runAttempt (.ok 0) ⟨false, 404, none, false, [], .eof⟩
        []).fileOpened = false ∧
    (runAttempt (.ok 0) ⟨false, 404, none, false, [], .eof⟩ []).file =
      ([] : List Nat) :=
  c10_no_open_on_protocol_error (.ok 0) ⟨false, 404, none, false, [], .eof⟩
    [] (.invalidStatus 404) (by decide) (Or.inl ⟨404, rfl⟩)

end AudibleDl
